import Mathlib

/-!
Shallow embedding of the jetman physics core: `src/physics.rs`,
`src/terrain.rs` and `src/world.rs`.

Modelling conventions:
* `f32` arithmetic is modelled by exact real arithmetic (`ℝ`);
* a Rust panic (out-of-bounds `Vec` indexing, debug-mode integer underflow)
  is modelled by `Option`, with `none` standing for the panic;
* rendering, keyboard polling and the camera are outside the simulation core
  and are not modelled; `World::update` consumes an `InputState` snapshot and
  a `dt` scalar, both of which are parameters here;
* the ground polygon built by `generate_ground_poly` depends on the screen
  size and the framework RNG, so `World.new` takes the terrain list as a
  parameter.
-/

open scoped Classical

noncomputable section

/-- 2D vector with exact-real components, modelling macroquad `Vec2`. -/
@[ext]
structure Vec2 where
  x : ℝ
  y : ℝ

instance : Zero Vec2 := ⟨⟨0, 0⟩⟩

instance : Add Vec2 := ⟨fun a b => ⟨a.x + b.x, a.y + b.y⟩⟩

instance : Sub Vec2 := ⟨fun a b => ⟨a.x - b.x, a.y - b.y⟩⟩

instance : Neg Vec2 := ⟨fun v => ⟨-v.x, -v.y⟩⟩

instance : SMul ℝ Vec2 := ⟨fun r v => ⟨r * v.x, r * v.y⟩⟩

@[simp] theorem Vec2.zero_x : (0 : Vec2).x = 0 := rfl

@[simp] theorem Vec2.zero_y : (0 : Vec2).y = 0 := rfl

@[simp] theorem Vec2.add_x (a b : Vec2) : (a + b).x = a.x + b.x := rfl

@[simp] theorem Vec2.add_y (a b : Vec2) : (a + b).y = a.y + b.y := rfl

@[simp] theorem Vec2.sub_x (a b : Vec2) : (a - b).x = a.x - b.x := rfl

@[simp] theorem Vec2.sub_y (a b : Vec2) : (a - b).y = a.y - b.y := rfl

@[simp] theorem Vec2.neg_x (a : Vec2) : (-a).x = -a.x := rfl

@[simp] theorem Vec2.neg_y (a : Vec2) : (-a).y = -a.y := rfl

@[simp] theorem Vec2.smul_x (r : ℝ) (a : Vec2) : (r • a).x = r * a.x := rfl

@[simp] theorem Vec2.smul_y (r : ℝ) (a : Vec2) : (r • a).y = r * a.y := rfl

/-- Dot product, `Vec2::dot`. -/
def Vec2.dot (a b : Vec2) : ℝ := a.x * b.x + a.y * b.y

/-- Squared length, `Vec2::length_squared`. -/
def Vec2.length_squared (v : Vec2) : ℝ := v.dot v

/-- Length, `Vec2::length`: the square root of the squared length. -/
def Vec2.length (v : Vec2) : ℝ := Real.sqrt (v.dot v)

/-- Division of a vector by a scalar, glam's `Vec2 / f32`. -/
def Vec2.sdiv (v : Vec2) (s : ℝ) : Vec2 := ⟨v.x / s, v.y / s⟩

/-- `Vec2::normalize`.  The zero vector has no direction; on it the float
code produces non-finite junk, so theorems about collision response assume a
nonzero argument. -/
def Vec2.normalize (v : Vec2) : Vec2 := v.sdiv v.length

/-- `vector_from_angle` (src/physics.rs): unit vector from an angle. -/
def vector_from_angle (angle : ℝ) : Vec2 := ⟨Real.cos angle, Real.sin angle⟩

/-- A physics body (src/physics.rs `Body`). -/
@[ext]
structure Body where
  position : Vec2
  velocity : Vec2
  acceleration : Vec2
  mass : ℝ

/-- `Body::new`: zero velocity and acceleration at a given position. -/
def Body.new (position : Vec2) (mass : ℝ) : Body :=
  { position := position, velocity := ⟨0, 0⟩, acceleration := ⟨0, 0⟩, mass := mass }

/-- `Body::apply_force`: `acceleration += force / mass`. -/
def Body.apply_force (b : Body) (force : Vec2) : Body :=
  { b with acceleration := b.acceleration + force.sdiv b.mass }

/-- `Body::clear_forces`: `velocity *= 0.0; acceleration *= 0.0`. -/
def Body.clear_forces (b : Body) : Body :=
  { b with velocity := (0 : ℝ) • b.velocity, acceleration := (0 : ℝ) • b.acceleration }

/-- `Body::update`: semi-implicit Euler — `velocity += acceleration * dt;
position += velocity * dt; acceleration = 0`. -/
def Body.update (b : Body) (dt : ℝ) : Body :=
  let v := b.velocity + dt • b.acceleration
  { position := b.position + dt • v, velocity := v, acceleration := 0, mass := b.mass }

/-- `Jetman` (src/physics.rs).  `ItemId` is a plain index, modelled as `ℕ`;
the visual-only `thrusting` counter is an `i32`, modelled as `ℤ` (its
overflow plays no role in any claim). -/
structure Jetman where
  body : Body
  heading : ℝ
  link_distance : ℝ
  linked_item : Option ℕ
  thrusting : ℤ

/-- `Jetman::new`: body at (200,200) with mass 1, heading 0, link distance
50, no linked item. -/
def Jetman.new : Jetman :=
  { body := Body.new ⟨200, 200⟩ 1, heading := 0, link_distance := 50,
    linked_item := none, thrusting := 0 }

/-- `Jetman::apply_thrust`: force of magnitude 0.1 along the heading. -/
def Jetman.apply_thrust (j : Jetman) : Jetman :=
  { j with body := j.body.apply_force ((0.1 : ℝ) • vector_from_angle j.heading),
           thrusting := 2 }

/-- `Jetman::turn_left`: `heading -= 0.1`. -/
def Jetman.turn_left (j : Jetman) : Jetman := { j with heading := j.heading - 0.1 }

/-- `Jetman::turn_right`: `heading += 0.1`. -/
def Jetman.turn_right (j : Jetman) : Jetman := { j with heading := j.heading + 0.1 }

/-- `Jetman::update`: integrate the body and decrement the flame timer. -/
def Jetman.update (j : Jetman) (dt : ℝ) : Jetman :=
  { j with body := j.body.update dt, thrusting := j.thrusting - 1 }

/-- `Item` (src/physics.rs): a body only. -/
structure Item where
  body : Body

/-- `Item::new`: body at (x, y) with mass 1. -/
def Item.new (x y : ℝ) : Item := ⟨Body.new ⟨x, y⟩ 1⟩

/-- `Teleporter` (src/physics.rs): a static position. -/
structure Teleporter where
  position : Vec2

/-- `Teleporter::new`. -/
def Teleporter.new (position : Vec2) : Teleporter := ⟨position⟩

/-- `InputState` (src/ui.rs): the per-tick input snapshot. -/
structure InputState where
  thrust : Bool
  turn_left : Bool
  turn_right : Bool
  sever_link : Bool

/-- macroquad `Rect`. -/
structure Rect where
  x : ℝ
  y : ℝ
  w : ℝ
  h : ℝ

/-- `TerrainShape` (src/terrain.rs). -/
inductive TerrainShape where
  | rectangle : Rect → TerrainShape
  | line : Vec2 → Vec2 → TerrainShape
  | circle : Vec2 → ℝ → TerrainShape
  | polygon : List Vec2 → TerrainShape

/-- `Terrain` (src/terrain.rs): a tagged shape. -/
structure Terrain where
  shape : TerrainShape

/-- `Terrain::rectangle`. -/
def Terrain.rectangle (x y w h : ℝ) : Terrain := ⟨.rectangle ⟨x, y, w, h⟩⟩

/-- `Terrain::line`. -/
def Terrain.line (x1 y1 x2 y2 : ℝ) : Terrain := ⟨.line ⟨x1, y1⟩ ⟨x2, y2⟩⟩

/-- `Terrain::circle`. -/
def Terrain.circle (x y r : ℝ) : Terrain := ⟨.circle ⟨x, y⟩ r⟩

/-- `Terrain::polygon`. -/
def Terrain.polygon (segments : List Vec2) : Terrain := ⟨.polygon segments⟩

/-- `f32::clamp` as used in the line-segment test. -/
def clampf (x lo hi : ℝ) : ℝ := if x < lo then lo else if x > hi then hi else x

/-- One iteration of the `point_in_polygon` loop body, for the edge from
vertex `pj` (previous) to vertex `pi` (current). -/
def pipEdge (point pi pj : Vec2) (inside : Bool) : Bool :=
  if (¬ ((pi.y > point.y) ↔ (pj.y > point.y))) ∧
      point.x < (pj.x - pi.x) * (point.y - pi.y) / (pj.y - pi.y + 0.00001) + pi.x
  then !inside else inside

/-- `point_in_polygon` (src/terrain.rs).  The Rust code starts with
`let mut j = polygon.len() - 1` on a `usize`; for an empty polygon this
subtraction underflows — a panic in debug builds — modelled as `none`.  For
a nonempty polygon the loop pairs each vertex with its predecessor, the
first vertex pairing with the last. -/
def point_in_polygon (point : Vec2) (polygon : List Vec2) : Option Bool :=
  match polygon with
  | [] => none
  | p :: ps =>
      some (((p :: ps).zip ((p :: ps).getLastD p :: p :: ps)).foldl
        (fun inside e => pipEdge point e.1 e.2 inside) false)

/-- `check_collision` (src/terrain.rs): collision response of one body
against one terrain piece; `none` models a panic (empty polygon). -/
def check_collision (body : Body) (terrain : Terrain) : Option Body :=
  match terrain.shape with
  | .rectangle rect =>
      let pos := body.position
      if pos.x > rect.x ∧ pos.x < rect.x + rect.w ∧ pos.y > rect.y ∧ pos.y < rect.y + rect.h
      then
        some { body with position := ⟨pos.x, rect.y - 1⟩,
                         velocity := ⟨body.velocity.x, -body.velocity.y * 0.5⟩ }
      else some body
  | .line p1 p2 =>
      let pos := body.position
      let linev := p2 - p1
      let to_pos := pos - p1
      let len_sq := linev.length_squared
      if len_sq = 0 then some body
      else
        let t := clampf (to_pos.dot linev / len_sq) 0 1
        let closest := p1 + t • linev
        let dist := (pos - closest).length
        if dist < 10 then
          let normal := (pos - closest).normalize
          some { body with
            position := closest + (10 : ℝ) • normal,
            velocity := (0.5 : ℝ) • (body.velocity - (2 * body.velocity.dot normal) • normal) }
        else some body
  | .circle center radius =>
      let pos := body.position
      let delta := pos - center
      let dist := delta.length
      let min_dist := radius + 10
      if dist < min_dist then
        let normal := delta.normalize
        some { body with
          position := center + min_dist • normal,
          velocity := (0.5 : ℝ) • (body.velocity - (2 * body.velocity.dot normal) • normal) }
      else some body
  | .polygon vertices =>
      match point_in_polygon body.position vertices with
      | none => none
      | some true =>
          some { body with position := ⟨body.position.x, body.position.y - 2⟩,
                           velocity := ⟨body.velocity.x, -body.velocity.y * 0.5⟩ }
      | some false => some body

/-- `World` (src/world.rs).  The camera is rendering state and not
modelled. -/
structure World where
  jetman : Jetman
  items : List Item
  teleports : List Teleporter
  gravity : Vec2
  terrain : List Terrain

/-- `World::new`.  The single ground polygon is produced by
`generate_ground_poly` from the screen size and the framework RNG, both
outside the core, so the terrain list is a parameter. -/
def World.new (terrain : List Terrain) : World :=
  { jetman := Jetman.new, items := [Item.new 100 200],
    teleports := [Teleporter.new ⟨400, 300⟩], gravity := ⟨0, 0.01⟩,
    terrain := terrain }

/-- The input-driven part of `World::update` (thrust, then turn left, then
turn right), acting on the jetman. -/
def jetmanInput (input : InputState) (j : Jetman) : Jetman :=
  let j1 := if input.thrust then j.apply_thrust else j
  let j2 := if input.turn_left then j1.turn_left else j1
  if input.turn_right then j2.turn_right else j2

/-- Step 1 of `World::update`: input-driven forces and rotation. -/
def inputStep (input : InputState) (w : World) : World :=
  { w with jetman := jetmanInput input w.jetman }

/-- Step 2 of `World::update`: gravity applied to the jetman only. -/
def gravityStep (w : World) : World :=
  { w with jetman := { w.jetman with body := w.jetman.body.apply_force w.gravity } }

/-- The teleporter loop of the delivery check: index of the first teleporter
(in collection order) whose distance to `pos` is below 10; the Rust loop
breaks at the first hit. -/
def firstTeleporter (pos : Vec2) : List Teleporter → Option ℕ
  | [] => none
  | t :: ts =>
      if (pos - t.position).length < 10 then some 0
      else (firstTeleporter pos ts).map (· + 1)

/-- Step 3 of `World::update`: the teleport delivery check.  The linked
index is dereferenced without validation (`self.items[item_id.0]`): an
out-of-range index is an out-of-bounds panic, modelled as `none`.  On
delivery the item is reset to (100,200) with forces cleared, the link is
cleared, and the item is removed from the collection. -/
def deliveryStep (w : World) : Option World :=
  match w.jetman.linked_item with
  | none => some w
  | some id =>
      if h : id < w.items.length then
        let item := w.items[id]
        match firstTeleporter item.body.position w.teleports with
        | some _ =>
            let b1 : Body := { item.body with position := ⟨100, 200⟩ }
            some { w with
              jetman := { w.jetman with linked_item := none },
              items := (w.items.set id ⟨b1.clear_forces⟩).eraseIdx id }
        | none => some w
      else none

/-- The auto-link loop: every item strictly within range of the jetman
overwrites the link with its own index (last write wins); `k` is the index
of the head of the remaining list, `acc` the link so far. -/
def linkScan (jpos : Vec2) (range : ℝ) : ℕ → Option ℕ → List Item → Option ℕ
  | _, acc, [] => acc
  | k, acc, it :: rest =>
      linkScan jpos range (k + 1)
        (if (it.body.position - jpos).length < range then some k else acc) rest

/-- Step 4 of `World::update`: the auto-link check. -/
def autolinkStep (w : World) : World :=
  { w with jetman := { w.jetman with
      linked_item := linkScan w.jetman.body.position w.jetman.link_distance 0
        w.jetman.linked_item w.items } }

/-- Step 5 of `World::update`: the sever check.  When sever is requested on
a linked tick the link is cleared and the item's forces are reset; the item
indexing `self.items[item_id.0]` can panic on a stale index (`none`). -/
def severStep (input : InputState) (w : World) : Option World :=
  if input.sever_link then
    match w.jetman.linked_item with
    | some id =>
        if h : id < w.items.length then
          some { w with
            jetman := { w.jetman with linked_item := none },
            items := w.items.set id ⟨(w.items[id]).body.clear_forces⟩ }
        else none
    | none => some w
  else some w

/-- Step 6 of `World::update`: the rigid-link constraint solve.  The Rust
code reads `jetman_pos` just before the auto-link loop; the jetman's
position is not modified between that read and this block, so the current
position is the same value.  The linked index is dereferenced without
validation (`none` on an out-of-range index). -/
def constraintStep (w : World) : Option World :=
  match w.jetman.linked_item with
  | none => some w
  | some id =>
      if h : id < w.items.length then
        let item := w.items[id]
        let jetman_pos := w.jetman.body.position
        let delta := item.body.position - jetman_pos
        let distance := delta.length
        let rest_length := w.jetman.link_distance
        if distance ≠ 0 then
          let direction := delta.sdiv distance
          let correction := (distance - rest_length) • direction
          let total_mass := w.jetman.body.mass + item.body.mass
          let jetman_ratio := item.body.mass / total_mass
          let item_ratio := w.jetman.body.mass / total_mass
          let relative_velocity := item.body.velocity - w.jetman.body.velocity
          let projected_velocity := relative_velocity.dot direction
          let velocity_correction := projected_velocity • direction
          some { w with
            jetman := { w.jetman with body := { w.jetman.body with
              position := w.jetman.body.position + jetman_ratio • correction,
              velocity := w.jetman.body.velocity + jetman_ratio • velocity_correction } },
            items := w.items.set id ⟨{ item.body with
              position := item.body.position - item_ratio • correction,
              velocity := item.body.velocity - item_ratio • velocity_correction }⟩ }
        else some w
      else none

/-- Step 7 of `World::update`: integrate the jetman and every item. -/
def integrateStep (dt : ℝ) (w : World) : World :=
  { w with jetman := w.jetman.update dt,
           items := w.items.map fun it => ⟨it.body.update dt⟩ }

/-- The inner item loop of the collision step: every item's body is checked
against one terrain piece, in order. -/
def collideItems (t : Terrain) : List Item → Option (List Item)
  | [] => some []
  | it :: rest => do
      let b ← check_collision it.body t
      let rest2 ← collideItems t rest
      pure (⟨b⟩ :: rest2)

/-- Step 8 of `World::update`: for every terrain piece in order, resolve the
jetman's body and then every item's body against it. -/
def collideAll : List Terrain → World → Option World
  | [], w => some w
  | t :: ts, w => do
      let jb ← check_collision w.jetman.body t
      let items2 ← collideItems t w.items
      collideAll ts { w with jetman := { w.jetman with body := jb }, items := items2 }

/-- `World::update` (src/world.rs): the per-tick pipeline, in source order —
input, gravity, delivery check, auto-link, sever, constraint solve,
integration, terrain collisions.  `dt` is the caller-scaled frame time;
`none` models a panic anywhere in the pipeline. -/
def World.update (w : World) (input : InputState) (dt : ℝ) : Option World := do
  let w1 := gravityStep (inputStep input w)
  let w2 ← deliveryStep w1
  let w3 := autolinkStep w2
  let w4 ← severStep input w3
  let w5 ← constraintStep w4
  let w6 := integrateStep dt w5
  collideAll w6.terrain w6

/-- States reachable from `World::new` (over any generated terrain) by any
sequence of successful updates. -/
inductive Reachable : World → Prop
  | init (terrain : List Terrain) : Reachable (World.new terrain)
  | step (w : World) (input : InputState) (dt : ℝ) (w' : World) :
      Reachable w → World.update w input dt = some w' → Reachable w'

/-- The link validity invariant: a linked index always denotes a live item. -/
def linkInv (w : World) : Prop :=
  ∀ i, w.jetman.linked_item = some i → i < w.items.length

end

noncomputable section

theorem Vec2.length_nonneg (v : Vec2) : 0 ≤ v.length := Real.sqrt_nonneg _

theorem Vec2.length_eval (v : Vec2) (c : ℝ) (hc : 0 ≤ c)
    (h : v.x * v.x + v.y * v.y = c * c) : v.length = c := by
  rw [Vec2.length, Vec2.dot, h, Real.sqrt_mul_self hc]

theorem Vec2.length_smul (r : ℝ) (v : Vec2) : (r • v).length = |r| * v.length := by
  rw [Vec2.length, Vec2.length, Vec2.dot, Vec2.dot]
  simp only [Vec2.smul_x, Vec2.smul_y]
  have h : r * v.x * (r * v.x) + r * v.y * (r * v.y)
      = (r * r) * (v.x * v.x + v.y * v.y) := by ring
  rw [h, Real.sqrt_mul (mul_self_nonneg r), Real.sqrt_mul_self_eq_abs]

theorem Vec2.sub_self_eq_zero (v : Vec2) : v - v = 0 := by
  ext <;> simp

theorem Vec2.length_zero : (0 : Vec2).length = 0 := by
  rw [Vec2.length, Vec2.dot]
  simp

theorem Vec2.sdiv_eq_smul (v : Vec2) (s : ℝ) : v.sdiv s = (1 / s) • v := by
  ext <;> simp [Vec2.sdiv, div_eq_mul_inv, mul_comm]

theorem Vec2.smul_smul (a b : ℝ) (v : Vec2) : a • (b • v) = (a * b) • v := by
  ext <;> simp <;> ring

/-- C2: if the linked Jetman and item occupy exactly the same position, the
constraint solve skips the correction entirely: the step leaves the whole
world (in particular both bodies' positions and velocities) unchanged and
performs no division by zero (the step succeeds; the model's exact
arithmetic has no non-finite values, and the guarded branch is the one
taken). -/
theorem constraint_skips_coincident (w : World) (i : ℕ)
    (hlink : w.jetman.linked_item = some i) (hi : i < w.items.length)
    (hpos : w.items[i].body.position = w.jetman.body.position) :
    constraintStep w = some w := by
  have hzero : (w.items[i].body.position - w.jetman.body.position).length = 0 := by
    rw [hpos, Vec2.sub_self_eq_zero, Vec2.length_zero]
  simp only [constraintStep, hlink]
  rw [dif_pos hi, if_neg]
  simp [hzero]

/-- Witness for C2 at a concrete world: Jetman at (200,200) linked to an
item at the same position. -/
theorem constraint_skips_coincident_witness :
    (let w : World := { jetman := { Jetman.new with linked_item := some 0 },
                        items := [Item.new 200 200], teleports := [],
                        gravity := ⟨0, 0.01⟩, terrain := [] }
     constraintStep w = some w) :=
  constraint_skips_coincident _ 0 rfl (by decide) (by ext <;> simp [Item.new, Body.new, Jetman.new])

/-- C10: the polygon containment test is not total on degenerate input —
`Terrain::polygon` accepts an empty vertex list, and `point_in_polygon`
computes `polygon.len() - 1` on an unsigned zero length, which underflows
(a panic, modelled as `none`) for every query point, and this propagates to
`check_collision`; for every nonempty vertex list the function is total and
returns a boolean. -/
theorem point_in_polygon_totality :
    (∀ b : Body, check_collision b (Terrain.polygon []) = none) ∧
    (∀ p : Vec2, point_in_polygon p [] = none) ∧
    (∀ (p : Vec2) (polygon : List Vec2), polygon ≠ [] →
      (point_in_polygon p polygon).isSome) := by
  refine ⟨fun b => rfl, fun p => rfl, fun p polygon hne => ?_⟩
  cases polygon with
  | nil => exact absurd rfl hne
  | cons q qs => simp [point_in_polygon]

/-- Witness for C10 on the unit square and a concrete query point. -/
theorem point_in_polygon_totality_witness :
    (point_in_polygon ⟨0.5, 0.5⟩ [⟨0, 0⟩, ⟨1, 0⟩, ⟨1, 1⟩, ⟨0, 1⟩]).isSome :=
  point_in_polygon_totality.2.2 ⟨0.5, 0.5⟩ [⟨0, 0⟩, ⟨1, 0⟩, ⟨1, 1⟩, ⟨0, 1⟩] (by simp)

/-- C8: for rectangle terrain, a body strictly inside the rectangle is
snapped to just above the top edge (`rect.y - 1`) with vertical velocity
inverted and halved, while horizontal position and velocity (and
acceleration and mass) are untouched; a body not strictly inside is left
entirely unchanged. -/
theorem rectangle_collision_response (rect : Rect) (b : Body) :
    (b.position.x > rect.x ∧ b.position.x < rect.x + rect.w ∧
     b.position.y > rect.y ∧ b.position.y < rect.y + rect.h →
      ∃ b', check_collision b ⟨.rectangle rect⟩ = some b' ∧
        b'.position.x = b.position.x ∧ b'.position.y = rect.y - 1 ∧
        b'.velocity.x = b.velocity.x ∧ b'.velocity.y = -b.velocity.y * 0.5 ∧
        b'.acceleration = b.acceleration ∧ b'.mass = b.mass) ∧
    (¬ (b.position.x > rect.x ∧ b.position.x < rect.x + rect.w ∧
        b.position.y > rect.y ∧ b.position.y < rect.y + rect.h) →
      check_collision b ⟨.rectangle rect⟩ = some b) := by
  constructor
  · intro hin
    refine ⟨⟨⟨b.position.x, rect.y - 1⟩, ⟨b.velocity.x, -b.velocity.y * 0.5⟩,
        b.acceleration, b.mass⟩, ?_, rfl, rfl, rfl, rfl, rfl, rfl⟩
    simp only [check_collision]
    rw [if_pos hin]
  · intro hout
    simp only [check_collision]
    rw [if_neg hout]

/-- Witness for C8: a body inside the rectangle (0,0,10,10) and one
outside it. -/
theorem rectangle_collision_response_witness :
    (∃ b', check_collision (Body.new ⟨5, 5⟩ 1) ⟨.rectangle ⟨0, 0, 10, 10⟩⟩ = some b' ∧
        b'.position.x = (Body.new ⟨5, 5⟩ 1).position.x ∧ b'.position.y = (0 : ℝ) - 1 ∧
        b'.velocity.x = (Body.new ⟨5, 5⟩ 1).velocity.x ∧
        b'.velocity.y = -(Body.new ⟨5, 5⟩ 1).velocity.y * 0.5 ∧
        b'.acceleration = (Body.new ⟨5, 5⟩ 1).acceleration ∧
        b'.mass = (Body.new ⟨5, 5⟩ 1).mass) ∧
    check_collision (Body.new ⟨20, 5⟩ 1) ⟨.rectangle ⟨0, 0, 10, 10⟩⟩
      = some (Body.new ⟨20, 5⟩ 1) :=
  ⟨(rectangle_collision_response ⟨0, 0, 10, 10⟩ (Body.new ⟨5, 5⟩ 1)).1
      (by norm_num [Body.new]),
   (rectangle_collision_response ⟨0, 0, 10, 10⟩ (Body.new ⟨20, 5⟩ 1)).2
      (by norm_num [Body.new])⟩

end

noncomputable section

theorem Vec2.length_normalize (v : Vec2) (h : 0 < v.length) : v.normalize.length = 1 := by
  rw [Vec2.normalize, Vec2.sdiv_eq_smul, Vec2.length_smul, abs_of_pos (one_div_pos.mpr h),
    one_div, inv_mul_cancel₀ (ne_of_gt h)]

/-- C7: for line-segment terrain, a body strictly closer than the 10-unit
contact radius to the closest (clamped-projection) point of the segment is
pushed to exactly the contact radius along the point-to-body normal and its
velocity becomes `(v - 2(v·n)n) * 0.5`; for circle terrain the identical
response with contact radius `radius + 10` around the center; and a
zero-length segment is skipped entirely (the body is unchanged).  The
coincident case (body exactly at the contact point) has no normal — the
float code produces non-finite junk there — so the response parts assume a
positive distance. -/
theorem segment_circle_collision_response :
    (∀ (p1 p2 : Vec2) (b : Body) (t : ℝ) (closest n : Vec2) (d : ℝ),
      (p2 - p1).length_squared ≠ 0 →
      t = clampf ((b.position - p1).dot (p2 - p1) / (p2 - p1).length_squared) 0 1 →
      closest = p1 + t • (p2 - p1) →
      d = (b.position - closest).length →
      n = (b.position - closest).normalize →
      0 < d → d < 10 →
      ∃ b', check_collision b ⟨.line p1 p2⟩ = some b' ∧
        b'.position = closest + (10 : ℝ) • n ∧
        (b'.position - closest).length = 10 ∧
        b'.velocity = (0.5 : ℝ) • (b.velocity - (2 * b.velocity.dot n) • n) ∧
        b'.acceleration = b.acceleration ∧ b'.mass = b.mass) ∧
    (∀ (center : Vec2) (radius : ℝ) (b : Body) (d : ℝ) (n : Vec2),
      d = (b.position - center).length →
      n = (b.position - center).normalize →
      0 < d → 0 ≤ radius → d < radius + 10 →
      ∃ b', check_collision b ⟨.circle center radius⟩ = some b' ∧
        b'.position = center + (radius + 10) • n ∧
        (b'.position - center).length = radius + 10 ∧
        b'.velocity = (0.5 : ℝ) • (b.velocity - (2 * b.velocity.dot n) • n) ∧
        b'.acceleration = b.acceleration ∧ b'.mass = b.mass) ∧
    (∀ (p : Vec2) (b : Body), check_collision b ⟨.line p p⟩ = some b) := by
  refine ⟨?_, ?_, ?_⟩
  · intro p1 p2 b t closest n d hlen ht hc hd hn hd0 hd10
    have hkey : check_collision b ⟨.line p1 p2⟩ =
        some { b with
          position := closest + (10 : ℝ) • n,
          velocity := (0.5 : ℝ) • (b.velocity - (2 * b.velocity.dot n) • n) } := by
      simp only [check_collision]
      rw [if_neg hlen, ← ht, ← hc, ← hd, ← hn, if_pos hd10]
    refine ⟨_, hkey, rfl, ?_, rfl, rfl, rfl⟩
    have hsub : (closest + (10 : ℝ) • n) - closest = (10 : ℝ) • n := by
      ext <;> simp
    show ((closest + (10 : ℝ) • n) - closest).length = 10
    rw [hsub, Vec2.length_smul, hn, Vec2.length_normalize]
    · norm_num
    · rw [← hd]; exact hd0
  · intro center radius b d n hd hn hd0 hr hdlt
    have hkey : check_collision b ⟨.circle center radius⟩ =
        some { b with
          position := center + (radius + 10) • n,
          velocity := (0.5 : ℝ) • (b.velocity - (2 * b.velocity.dot n) • n) } := by
      simp only [check_collision]
      rw [← hd, ← hn, if_pos hdlt]
    refine ⟨_, hkey, rfl, ?_, rfl, rfl, rfl⟩
    have hsub : (center + (radius + 10) • n) - center = (radius + 10) • n := by
      ext <;> simp
    show ((center + (radius + 10) • n) - center).length = radius + 10
    rw [hsub, Vec2.length_smul, hn, Vec2.length_normalize]
    · rw [mul_one, abs_of_pos (by linarith)]
    · rw [← hd]; exact hd0
  · intro p b
    simp only [check_collision]
    rw [if_pos (by simp [Vec2.length_squared, Vec2.dot])]

/-- Witness for C7: a body at (5,3) against the segment (0,0)–(10,0), a
body at (0,8) against the circle of radius 6 at the origin, and a
zero-length segment. -/
theorem segment_circle_collision_response_witness :
    (∃ b', check_collision ⟨⟨5, 3⟩, ⟨1, 1⟩, ⟨0, 0⟩, 1⟩ ⟨.line ⟨0, 0⟩ ⟨10, 0⟩⟩ = some b' ∧
        b'.position = (⟨5, 0⟩ : Vec2) + (10 : ℝ) • (⟨0, 1⟩ : Vec2) ∧
        (b'.position - ⟨5, 0⟩).length = 10 ∧
        b'.velocity = (0.5 : ℝ) • ((⟨1, 1⟩ : Vec2) -
          (2 * Vec2.dot ⟨1, 1⟩ ⟨0, 1⟩) • (⟨0, 1⟩ : Vec2)) ∧
        b'.acceleration = (⟨0, 0⟩ : Vec2) ∧ b'.mass = 1) ∧
    (∃ b', check_collision ⟨⟨0, 8⟩, ⟨0, -2⟩, ⟨0, 0⟩, 1⟩ ⟨.circle ⟨0, 0⟩ 6⟩ = some b' ∧
        b'.position = (⟨0, 0⟩ : Vec2) + ((6 : ℝ) + 10) • (⟨0, 1⟩ : Vec2) ∧
        (b'.position - ⟨0, 0⟩).length = (6 : ℝ) + 10 ∧
        b'.velocity = (0.5 : ℝ) • ((⟨0, -2⟩ : Vec2) -
          (2 * Vec2.dot ⟨0, -2⟩ ⟨0, 1⟩) • (⟨0, 1⟩ : Vec2)) ∧
        b'.acceleration = (⟨0, 0⟩ : Vec2) ∧ b'.mass = 1) ∧
    check_collision ⟨⟨5, 3⟩, ⟨1, 1⟩, ⟨0, 0⟩, 1⟩ ⟨.line ⟨1, 2⟩ ⟨1, 2⟩⟩
      = some ⟨⟨5, 3⟩, ⟨1, 1⟩, ⟨0, 0⟩, 1⟩ := by
  have h3 : ((⟨5, 3⟩ : Vec2) - (⟨5, 0⟩ : Vec2)).length = 3 := by
    apply Vec2.length_eval <;> norm_num
  have h8 : ((⟨0, 8⟩ : Vec2) - (⟨0, 0⟩ : Vec2)).length = 8 := by
    apply Vec2.length_eval <;> norm_num
  refine ⟨?_, ?_, segment_circle_collision_response.2.2 ⟨1, 2⟩ _⟩
  · exact segment_circle_collision_response.1 ⟨0, 0⟩ ⟨10, 0⟩ ⟨⟨5, 3⟩, ⟨1, 1⟩, ⟨0, 0⟩, 1⟩
      (1 / 2) ⟨5, 0⟩ ⟨0, 1⟩ 3
      (by norm_num [Vec2.length_squared, Vec2.dot])
      (by norm_num [Vec2.dot, Vec2.length_squared, clampf])
      (by ext <;> norm_num)
      h3.symm
      (by rw [Vec2.normalize, h3]; ext <;> norm_num [Vec2.sdiv])
      (by norm_num) (by norm_num)
  · exact segment_circle_collision_response.2.1 ⟨0, 0⟩ 6 ⟨⟨0, 8⟩, ⟨0, -2⟩, ⟨0, 0⟩, 1⟩ 8 ⟨0, 1⟩
      h8.symm
      (by rw [Vec2.normalize, h8]; ext <;> norm_num [Vec2.sdiv])
      (by norm_num) (by norm_num) (by norm_num)

end

noncomputable section

/-- C1: one pass of the constraint solve on a linked pair with distinct
positions (d > 0) and positive masses moves Jetman by
`(d - rest_length) * (item_mass / total_mass)` along the unit direction `u`
from Jetman toward the item and moves the item by
`(d - rest_length) * (jetman_mass / total_mass)` in the opposite sense; the
displacement magnitudes are in the inverse mass ratio (stated in
cross-multiplied form, which also covers `d = rest_length` where both
displacements vanish); and for `d > rest_length` the post-correction
distance is exactly `rest_length`, so the distance error is strictly
reduced. -/
theorem constraint_mass_weighted_correction (w : World) (i : ℕ)
    (hlink : w.jetman.linked_item = some i) (hi : i < w.items.length)
    (d rest : ℝ) (u : Vec2)
    (hd : d = (w.items[i].body.position - w.jetman.body.position).length)
    (hu : u = (w.items[i].body.position - w.jetman.body.position).sdiv d)
    (hrest : rest = w.jetman.link_distance)
    (hd0 : 0 < d) (hjm : 0 < w.jetman.body.mass) (him : 0 < w.items[i].body.mass)
    (hrest0 : 0 ≤ rest) :
    ∃ w', constraintStep w = some w' ∧
      w'.jetman.body.position = w.jetman.body.position +
        ((d - rest) * (w.items[i].body.mass /
          (w.jetman.body.mass + w.items[i].body.mass))) • u ∧
      ∃ hi' : i < w'.items.length,
        w'.items[i].body.position = w.items[i].body.position -
          ((d - rest) * (w.jetman.body.mass /
            (w.jetman.body.mass + w.items[i].body.mass))) • u ∧
        (w'.jetman.body.position - w.jetman.body.position).length * w.jetman.body.mass
          = (w'.items[i].body.position - w.items[i].body.position).length *
              w.items[i].body.mass ∧
        (rest < d →
          (w'.items[i].body.position - w'.jetman.body.position).length = rest ∧
          |(w'.items[i].body.position - w'.jetman.body.position).length - rest|
            < |d - rest|) := by
  have hdne : d ≠ 0 := ne_of_gt hd0
  have hne : (w.items[i].body.position - w.jetman.body.position).length ≠ 0 := by
    rw [← hd]; exact hdne
  have htot : (0 : ℝ) < w.jetman.body.mass + w.items[i].body.mass := by linarith
  have htne : w.jetman.body.mass + w.items[i].body.mass ≠ 0 := ne_of_gt htot
  have hdelta : w.items[i].body.position - w.jetman.body.position = d • u := by
    rw [hu]
    ext <;> simp [Vec2.sdiv] <;> field_simp
  have hx : w.items[i].body.position.x - w.jetman.body.position.x = d * u.x := by
    have := congrArg Vec2.x hdelta; simpa using this
  have hy : w.items[i].body.position.y - w.jetman.body.position.y = d * u.y := by
    have := congrArg Vec2.y hdelta; simpa using this
  have hulen : u.length = 1 := by
    rw [hu, Vec2.sdiv_eq_smul, Vec2.length_smul, ← hd,
      abs_of_pos (one_div_pos.mpr hd0), one_div, inv_mul_cancel₀ hdne]
  simp only [constraintStep, hlink]
  rw [dif_pos hi, if_pos hne, ← hd, ← hrest, ← hu]
  refine ⟨_, rfl, ?_, ?_, ?_, ?_, ?_⟩
  · ext <;> simp <;> ring
  · simpa using hi
  · simp only [List.getElem_set_self]
    ext <;> simp <;> ring
  · have e1 : (w.jetman.body.position +
        (w.items[i].body.mass / (w.jetman.body.mass + w.items[i].body.mass)) •
          ((d - rest) • u)) - w.jetman.body.position =
        (w.items[i].body.mass / (w.jetman.body.mass + w.items[i].body.mass)) •
          ((d - rest) • u) := by
      ext <;> simp
    have e2 : (w.items[i].body.position -
        (w.jetman.body.mass / (w.jetman.body.mass + w.items[i].body.mass)) •
          ((d - rest) • u)) - w.items[i].body.position =
        (-(w.jetman.body.mass / (w.jetman.body.mass + w.items[i].body.mass))) •
          ((d - rest) • u) := by
      ext <;> simp
    simp only [List.getElem_set_self]
    rw [e1, e2]
    simp only [Vec2.length_smul, abs_neg]
    rw [abs_of_pos (div_pos him htot), abs_of_pos (div_pos hjm htot)]
    ring
  · intro hlt
    have hpost : (w.items[i].body.position -
          (w.jetman.body.mass / (w.jetman.body.mass + w.items[i].body.mass)) •
            ((d - rest) • u)) -
        (w.jetman.body.position +
          (w.items[i].body.mass / (w.jetman.body.mass + w.items[i].body.mass)) •
            ((d - rest) • u)) = rest • u := by
      ext
      · simp only [Vec2.sub_x, Vec2.add_x, Vec2.smul_x]
        have hx' : w.items[i].body.position.x =
            w.jetman.body.position.x + d * u.x := by linarith
        rw [hx']
        field_simp
        ring
      · simp only [Vec2.sub_y, Vec2.add_y, Vec2.smul_y]
        have hy' : w.items[i].body.position.y =
            w.jetman.body.position.y + d * u.y := by linarith
        rw [hy']
        field_simp
        ring
    simp only [List.getElem_set_self]
    rw [hpost, Vec2.length_smul, hulen, mul_one, abs_of_nonneg hrest0]
    constructor
    · rfl
    · rw [sub_self, abs_zero]
      exact abs_pos.mpr (sub_ne_zero.mpr (ne_of_gt hlt))

end

noncomputable section

/-- A concrete linked world exercising the constraint solve: Jetman at the
origin (mass 1) linked to the single item at (60,80) (mass 1, distance
100, rest length 50). -/
def linkedWorldA : World :=
  { jetman := { Jetman.new with body := Body.new ⟨0, 0⟩ 1, linked_item := some 0 },
    items := [Item.new 60 80], teleports := [], gravity := ⟨0, 0.01⟩, terrain := [] }

/-- Witness for C1 on `linkedWorldA`: Jetman moves to (15,20), the item to
(45,60), and the post-correction distance is exactly the rest length 50. -/
theorem constraint_mass_weighted_correction_witness :
    ∃ w', constraintStep linkedWorldA = some w' ∧
      w'.jetman.body.position = (⟨15, 20⟩ : Vec2) ∧
      ∃ h0 : 0 < w'.items.length,
        w'.items[0].body.position = (⟨45, 60⟩ : Vec2) ∧
        (w'.items[0].body.position - w'.jetman.body.position).length = 50 := by
  have hd : (100 : ℝ) =
      (linkedWorldA.items[0].body.position - linkedWorldA.jetman.body.position).length := by
    symm
    apply Vec2.length_eval
    · norm_num
    · show ((60 : ℝ) - 0) * ((60 : ℝ) - 0) + ((80 : ℝ) - 0) * ((80 : ℝ) - 0)
        = 100 * 100
      norm_num
  have hu : (⟨0.6, 0.8⟩ : Vec2) =
      (linkedWorldA.items[0].body.position - linkedWorldA.jetman.body.position).sdiv 100 := by
    ext <;> simp [linkedWorldA, Item.new, Body.new, Jetman.new, Vec2.sdiv] <;> norm_num
  obtain ⟨w', hw', hjp, hi', hip, hratio, himp⟩ :=
    constraint_mass_weighted_correction linkedWorldA 0 rfl (by decide) 100 50
      ⟨0.6, 0.8⟩ hd hu rfl (by norm_num) (by norm_num [linkedWorldA, Jetman.new, Body.new])
      (by norm_num [linkedWorldA, Item.new, Body.new]) (by norm_num)
  refine ⟨w', hw', ?_, hi', ?_, (himp (by norm_num)).1⟩
  · rw [hjp]
    ext <;> simp [linkedWorldA, Jetman.new, Item.new, Body.new] <;> norm_num
  · rw [hip]
    ext <;> simp [linkedWorldA, Jetman.new, Item.new, Body.new] <;> norm_num

end

noncomputable section

/-- C6: body integration is semi-implicit Euler — from zero initial
velocity, applying force `F` to a body of mass `m` and integrating one tick
`dt` yields velocity `(F/m)*dt`, position `p0 + velocity*dt`, and a reset
acceleration; in particular a full `World::update` tick on the initial
world (no input, no terrain in range, `dt = 1`) leaves Jetman with velocity
(0, 0.01) and position (200, 200.01) under the gravity force (0, 0.01). -/
theorem euler_integration :
    (∀ (p F : Vec2) (m dt : ℝ), 0 < m →
      (((Body.new p m).apply_force F).update dt).velocity = dt • F.sdiv m ∧
      (((Body.new p m).apply_force F).update dt).position = p + dt • (dt • F.sdiv m) ∧
      (((Body.new p m).apply_force F).update dt).acceleration = 0) ∧
    (∃ w', World.update (World.new []) ⟨false, false, false, false⟩ 1 = some w' ∧
      w'.jetman.body.velocity = (⟨0, 0.01⟩ : Vec2) ∧
      w'.jetman.body.position = (⟨200, 200.01⟩ : Vec2)) := by
  constructor
  · intro p F m dt _hm
    refine ⟨?_, ?_, ?_⟩ <;> ext <;> simp [Body.new, Body.apply_force, Body.update]
  · have hnl : ¬ (((⟨100, 200⟩ : Vec2) - ⟨200, 200⟩).length < (50 : ℝ)) := by
      have h : ((⟨100, 200⟩ : Vec2) - ⟨200, 200⟩).length = 100 := by
        apply Vec2.length_eval <;> norm_num
      rw [h]; norm_num
    simp [World.update, World.new, inputStep, jetmanInput, gravityStep, deliveryStep,
      autolinkStep, linkScan, severStep, constraintStep, integrateStep, collideAll,
      Jetman.new, Jetman.update, Item.new, Body.new, Body.apply_force, Body.update,
      Jetman.apply_thrust, Vec2.sdiv, hnl]
    norm_num
    refine ⟨?_, ?_⟩ <;> ext <;> (simp; try norm_num)

/-- Witness for C6's general part at mass 2, force (4,6), `dt = 3`. -/
theorem euler_integration_witness :
    (((Body.new ⟨1, 1⟩ 2).apply_force ⟨4, 6⟩).update 3).velocity
        = (3 : ℝ) • Vec2.sdiv ⟨4, 6⟩ 2 ∧
    (((Body.new ⟨1, 1⟩ 2).apply_force ⟨4, 6⟩).update 3).position
        = (⟨1, 1⟩ : Vec2) + (3 : ℝ) • ((3 : ℝ) • Vec2.sdiv ⟨4, 6⟩ 2) ∧
    (((Body.new ⟨1, 1⟩ 2).apply_force ⟨4, 6⟩).update 3).acceleration = 0 :=
  euler_integration.1 ⟨1, 1⟩ ⟨4, 6⟩ 2 3 (by norm_num)

end

noncomputable section

theorem linkScan_none (jpos : Vec2) (range : ℝ) :
    ∀ (items : List Item) (k : ℕ) (acc : Option ℕ),
      (∀ j (hj : j < items.length), ¬ (items[j].body.position - jpos).length < range) →
      linkScan jpos range k acc items = acc := by
  intro items
  induction items with
  | nil => intro k acc _; rfl
  | cons it rest ih =>
      intro k acc h
      have h0 : ¬ (it.body.position - jpos).length < range := h 0 (by simp)
      show linkScan jpos range (k + 1)
          (if (it.body.position - jpos).length < range then some k else acc) rest = acc
      rw [if_neg h0]
      exact ih (k + 1) acc (fun j hj => by simpa using h (j + 1) (by simpa using hj))

theorem linkScan_max (jpos : Vec2) (range : ℝ) :
    ∀ (items : List Item) (k : ℕ) (acc : Option ℕ) (j : ℕ) (hj : j < items.length),
      (items[j].body.position - jpos).length < range →
      ∃ j0, ∃ hj0 : j0 < items.length,
        (items[j0].body.position - jpos).length < range ∧
        (∀ j2 (hj2 : j2 < items.length),
          (items[j2].body.position - jpos).length < range → j2 ≤ j0) ∧
        linkScan jpos range k acc items = some (k + j0) := by
  intro items
  induction items with
  | nil => intro k acc j hj; exact absurd hj (by simp)
  | cons it rest ih =>
      intro k acc j hj hin
      show ∃ j0, ∃ hj0 : j0 < (it :: rest).length, _
      by_cases hrest : ∃ j2, ∃ hj2 : j2 < rest.length,
          (rest[j2].body.position - jpos).length < range
      · obtain ⟨j2, hj2, hin2⟩ := hrest
        obtain ⟨j0, hj0, hin0, hmax, heq⟩ := ih (k + 1)
          (if (it.body.position - jpos).length < range then some k else acc) j2 hj2 hin2
        refine ⟨j0 + 1, by simpa using hj0, by simpa using hin0, ?_, ?_⟩
        · intro m hm hmin
          cases m with
          | zero => exact Nat.zero_le _
          | succ m2 =>
              have := hmax m2 (by simpa using hm) (by simpa using hmin)
              omega
        · show linkScan jpos range (k + 1)
            (if (it.body.position - jpos).length < range then some k else acc) rest
              = some (k + (j0 + 1))
          rw [heq]
          congr 1
          omega
      · push_neg at hrest
        have hj0 : j = 0 := by
          cases j with
          | zero => rfl
          | succ j2 =>
              have hj2 : j2 < rest.length := by simpa using hj
              exact absurd (by simpa using hin) (not_lt.mpr (hrest j2 hj2))
        subst hj0
        have h0 : (it.body.position - jpos).length < range := by simpa using hin
        refine ⟨0, by simp, by simpa using h0, ?_, ?_⟩
        · intro m hm hmin
          cases m with
          | zero => exact le_refl 0
          | succ m2 =>
              have hm2 : m2 < rest.length := by simpa using hm
              exact absurd (by simpa using hmin) (not_lt.mpr (hrest m2 hm2))
        · show linkScan jpos range (k + 1)
            (if (it.body.position - jpos).length < range then some k else acc) rest
              = some (k + 0)
          rw [if_pos h0, linkScan_none jpos range rest (k + 1) (some k)
            (fun j2 hj2 => not_lt.mpr (hrest j2 hj2))]
          rfl

/-- C5: at the auto-link step every item strictly within link range
overwrites the link, so when several items qualify the one with the
greatest index (the last one iterated) ends up linked — last write wins,
not nearest wins; and when no item is within range the link is left exactly
as it was, so a linked item that has moved out of range stays linked
(distance alone never clears the link). -/
theorem autolink_last_write_wins (w : World) :
    (∀ j (hj : j < w.items.length),
      (w.items[j].body.position - w.jetman.body.position).length < w.jetman.link_distance →
      ∃ m, ∃ hm : m < w.items.length,
        (autolinkStep w).jetman.linked_item = some m ∧
        (w.items[m].body.position - w.jetman.body.position).length < w.jetman.link_distance ∧
        ∀ k (hk : k < w.items.length),
          (w.items[k].body.position - w.jetman.body.position).length < w.jetman.link_distance →
          k ≤ m) ∧
    ((∀ k (hk : k < w.items.length),
        ¬ (w.items[k].body.position - w.jetman.body.position).length < w.jetman.link_distance) →
      (autolinkStep w).jetman.linked_item = w.jetman.linked_item) := by
  constructor
  · intro j hj hin
    obtain ⟨j0, hj0, hin0, hmax, heq⟩ := linkScan_max w.jetman.body.position
      w.jetman.link_distance w.items 0 w.jetman.linked_item j hj hin
    refine ⟨j0, hj0, ?_, hin0, hmax⟩
    show linkScan w.jetman.body.position w.jetman.link_distance 0
      w.jetman.linked_item w.items = some j0
    rw [heq, Nat.zero_add]
  · intro hnone
    show linkScan w.jetman.body.position w.jetman.link_distance 0
      w.jetman.linked_item w.items = w.jetman.linked_item
    exact linkScan_none _ _ _ _ _ hnone

end

noncomputable section

/-- A world with two items both within link range of Jetman at (200,200). -/
def autolinkWorldA : World :=
  { jetman := Jetman.new, items := [Item.new 210 200, Item.new 190 200],
    teleports := [], gravity := ⟨0, 0.01⟩, terrain := [] }

/-- A world whose only item is linked but far out of link range. -/
def autolinkWorldB : World :=
  { jetman := { Jetman.new with linked_item := some 0 },
    items := [Item.new 300 200], teleports := [], gravity := ⟨0, 0.01⟩,
    terrain := [] }

/-- Witness for C5: with two in-range items the auto-link step links the
last (greatest-index) one, and with the linked item out of range the link
is left unchanged. -/
theorem autolink_last_write_wins_witness :
    (∃ m, ∃ hm : m < autolinkWorldA.items.length,
      (autolinkStep autolinkWorldA).jetman.linked_item = some m ∧
      (autolinkWorldA.items[m].body.position -
        autolinkWorldA.jetman.body.position).length
          < autolinkWorldA.jetman.link_distance ∧
      ∀ k (hk : k < autolinkWorldA.items.length),
        (autolinkWorldA.items[k].body.position -
          autolinkWorldA.jetman.body.position).length
            < autolinkWorldA.jetman.link_distance → k ≤ m) ∧
    (autolinkStep autolinkWorldB).jetman.linked_item
      = autolinkWorldB.jetman.linked_item := by
  constructor
  · have e0 : (autolinkWorldA.items[0].body.position -
        autolinkWorldA.jetman.body.position).length = 10 := by
      apply Vec2.length_eval
      · norm_num
      · simp [autolinkWorldA, Item.new, Body.new, Jetman.new]
        norm_num
    exact (autolink_last_write_wins autolinkWorldA).1 0 (by norm_num [autolinkWorldA])
      (by rw [e0, show autolinkWorldA.jetman.link_distance = 50 from rfl]; norm_num)
  · have e0 : (autolinkWorldB.items[0].body.position -
        autolinkWorldB.jetman.body.position).length = 100 := by
      apply Vec2.length_eval
      · norm_num
      · simp [autolinkWorldB, Item.new, Body.new, Jetman.new]
        norm_num
    refine (autolink_last_write_wins autolinkWorldB).2 ?_
    intro k hk
    have hk1 : k < 1 := by simpa [autolinkWorldB] using hk
    have hk0 : k = 0 := by omega
    subst hk0
    rw [e0, show autolinkWorldB.jetman.link_distance = 50 from rfl]
    norm_num

end

noncomputable section

theorem jetmanInput_linked (input : InputState) (j : Jetman) :
    (jetmanInput input j).linked_item = j.linked_item := by
  rcases input with ⟨t, l, r, s⟩
  cases t <;> cases l <;> cases r <;> rfl

theorem jetmanInput_link_distance (input : InputState) (j : Jetman) :
    (jetmanInput input j).link_distance = j.link_distance := by
  rcases input with ⟨t, l, r, s⟩
  cases t <;> cases l <;> cases r <;> rfl

theorem severStep_facts (input : InputState) (w w' : World)
    (h : severStep input w = some w') :
    w'.items.length = w.items.length ∧
    (w'.jetman.linked_item = w.jetman.linked_item ∨ w'.jetman.linked_item = none) := by
  unfold severStep at h
  split at h
  · split at h
    · split at h
      · injection h with h
        subst h
        simp [List.length_set]
      · exact absurd h (by simp)
    · injection h with h
      subst h
      exact ⟨rfl, Or.inl rfl⟩
  · injection h with h
    subst h
    exact ⟨rfl, Or.inl rfl⟩

theorem constraintStep_facts (w w' : World) (h : constraintStep w = some w') :
    w'.items.length = w.items.length ∧
    w'.jetman.linked_item = w.jetman.linked_item := by
  unfold constraintStep at h
  split at h
  · injection h with h
    subst h
    exact ⟨rfl, rfl⟩
  · split at h
    · simp only [ne_eq] at h
      split at h
      · injection h with h
        subst h
        simp [List.length_set]
      · injection h with h
        subst h
        exact ⟨rfl, rfl⟩
    · exact absurd h (by simp)

theorem collideItems_length (t : Terrain) :
    ∀ (l l' : List Item), collideItems t l = some l' → l'.length = l.length := by
  intro l
  induction l with
  | nil =>
      intro l' h
      injection h with h
      subst h
      rfl
  | cons it rest ih =>
      intro l' h
      unfold collideItems at h
      cases hc : check_collision it.body t with
      | none => rw [hc] at h; exact absurd h (by simp)
      | some b =>
          rw [hc] at h
          cases hr : collideItems t rest with
          | none => rw [hr] at h; exact absurd h (by simp)
          | some rest2 =>
              rw [hr] at h
              injection h with h
              subst h
              simp [ih rest2 hr]

theorem collideAll_facts :
    ∀ (ts : List Terrain) (w w' : World), collideAll ts w = some w' →
      w'.items.length = w.items.length ∧
      w'.jetman.linked_item = w.jetman.linked_item := by
  intro ts
  induction ts with
  | nil =>
      intro w w' h
      injection h with h
      subst h
      exact ⟨rfl, rfl⟩
  | cons t rest ih =>
      intro w w' h
      unfold collideAll at h
      cases hj : check_collision w.jetman.body t with
      | none => rw [hj] at h; exact absurd h (by simp)
      | some jb =>
          rw [hj] at h
          cases hi : collideItems t w.items with
          | none => rw [hi] at h; exact absurd h (by simp)
          | some items2 =>
              rw [hi] at h
              simp only [Option.bind] at h
              obtain ⟨h1, h2⟩ := ih _ _ h
              exact ⟨h1.trans (collideItems_length t _ _ hi), h2⟩

theorem update_as_steps (w : World) (input : InputState) (dt : ℝ) (w3 : World)
    (h : World.update w input dt = some w3) :
    ∃ w2 w4 w5, deliveryStep (gravityStep (inputStep input w)) = some w2 ∧
      severStep input (autolinkStep w2) = some w4 ∧
      constraintStep w4 = some w5 ∧
      collideAll (integrateStep dt w5).terrain (integrateStep dt w5) = some w3 := by
  simp only [World.update] at h
  cases h2 : deliveryStep (gravityStep (inputStep input w)) with
  | none => rw [h2] at h; exact Option.noConfusion h
  | some w2 =>
      rw [h2] at h
      have hb : (do
          let w4 ← severStep input (autolinkStep w2)
          let w5 ← constraintStep w4
          collideAll (integrateStep dt w5).terrain (integrateStep dt w5)) = some w3 := h
      cases h4 : severStep input (autolinkStep w2) with
      | none => rw [h4] at hb; exact Option.noConfusion hb
      | some w4 =>
          rw [h4] at hb
          have hc : (do
              let w5 ← constraintStep w4
              collideAll (integrateStep dt w5).terrain (integrateStep dt w5)) = some w3 := hb
          cases h5 : constraintStep w4 with
          | none => rw [h5] at hc; exact Option.noConfusion hc
          | some w5 =>
              rw [h5] at hc
              exact ⟨w2, w4, w5, rfl, h4, h5, hc⟩

end

noncomputable section

theorem firstTeleporter_first (pos : Vec2) :
    ∀ (ts : List Teleporter) (j : ℕ) (hj : j < ts.length),
      (pos - ts[j].position).length < 10 →
      ∃ j0, ∃ hj0 : j0 < ts.length,
        firstTeleporter pos ts = some j0 ∧
        (pos - ts[j0].position).length < 10 ∧
        ∀ k (hk : k < ts.length), k < j0 →
          ¬ (pos - ts[k].position).length < 10 := by
  intro ts
  induction ts with
  | nil => intro j hj; exact absurd hj (by simp)
  | cons t rest ih =>
      intro j hj hin
      by_cases h0 : (pos - t.position).length < 10
      · refine ⟨0, by simp, ?_, by simpa using h0, ?_⟩
        · show (if (pos - t.position).length < 10 then some 0
                else (firstTeleporter pos rest).map (· + 1)) = some 0
          rw [if_pos h0]
        · intro k hk hk0
          exact absurd hk0 (Nat.not_lt_zero k)
      · have hj' : ∃ j2, ∃ hj2 : j2 < rest.length,
            (pos - rest[j2].position).length < 10 := by
          cases j with
          | zero => exact absurd (by simpa using hin) h0
          | succ j2 => exact ⟨j2, by simpa using hj, by simpa using hin⟩
        obtain ⟨j2, hj2, hin2⟩ := hj'
        obtain ⟨j0, hj0, heq, hin0, hmin⟩ := ih j2 hj2 hin2
        refine ⟨j0 + 1, by simpa using hj0, ?_, by simpa using hin0, ?_⟩
        · show (if (pos - t.position).length < 10 then some 0
                else (firstTeleporter pos rest).map (· + 1)) = some (j0 + 1)
          rw [if_neg h0, heq]
          rfl
        · intro k hk hklt
          cases k with
          | zero => simpa using h0
          | succ k2 =>
              have := hmin k2 (by simpa using hk) (by omega)
              simpa using this

theorem deliveryStep_delivers (w : World) (i : ℕ)
    (hlink : w.jetman.linked_item = some i) (hi : i < w.items.length)
    (hex : ∃ j, ∃ hj : j < w.teleports.length,
      (w.items[i].body.position - w.teleports[j].position).length < 10) :
    ∃ w2, deliveryStep w = some w2 ∧ w2.jetman.linked_item = none ∧
      w2.items.length + 1 = w.items.length := by
  obtain ⟨j, hj, hnear⟩ := hex
  obtain ⟨j0, hj0, heq, hin0, hmin⟩ := firstTeleporter_first
    w.items[i].body.position w.teleports j hj hnear
  simp only [deliveryStep, hlink]
  rw [dif_pos hi, heq]
  refine ⟨_, rfl, rfl, ?_⟩
  show ((w.items.set i _).eraseIdx i).length + 1 = w.items.length
  rw [List.length_eraseIdx_of_lt (by simpa using hi)]
  simp [List.length_set]
  omega

end

noncomputable section

/-- C4: if the linked item is within the 10-unit trigger radius of some
teleporter at the delivery-check step, the delivery fires: the link is
cleared and the item removed there, the first teleporter in collection
order (the smallest index within radius, where the Rust loop breaks) is the
one that triggers, and over the whole tick any successful `World::update`
ends with exactly one item fewer. -/
theorem teleport_delivery (w : World) (i : ℕ)
    (hlink : w.jetman.linked_item = some i) (hi : i < w.items.length)
    (j : ℕ) (hj : j < w.teleports.length)
    (hnear : (w.items[i].body.position - w.teleports[j].position).length < 10) :
    (∃ w2, deliveryStep w = some w2 ∧ w2.jetman.linked_item = none ∧
      w2.items.length + 1 = w.items.length) ∧
    (∃ j0, ∃ hj0 : j0 < w.teleports.length,
      firstTeleporter w.items[i].body.position w.teleports = some j0 ∧
      (w.items[i].body.position - w.teleports[j0].position).length < 10 ∧
      ∀ k (hk : k < w.teleports.length), k < j0 →
        ¬ (w.items[i].body.position - w.teleports[k].position).length < 10) ∧
    (∀ (input : InputState) (dt : ℝ) (w3 : World),
      World.update w input dt = some w3 → w3.items.length + 1 = w.items.length) := by
  refine ⟨deliveryStep_delivers w i hlink hi ⟨j, hj, hnear⟩,
    firstTeleporter_first w.items[i].body.position w.teleports j hj hnear, ?_⟩
  intro input dt w3 hup
  obtain ⟨w2, w4, w5, hdel, hsev, hcon, hcol⟩ := update_as_steps w input dt w3 hup
  have hl1 : (gravityStep (inputStep input w)).jetman.linked_item = some i := by
    show (jetmanInput input w.jetman).linked_item = some i
    rw [jetmanInput_linked]
    exact hlink
  obtain ⟨w2', hd', hl', hlen'⟩ := deliveryStep_delivers
    (gravityStep (inputStep input w)) i hl1 hi ⟨j, hj, hnear⟩
  have hw2 : w2 = w2' := by
    have := hdel.symm.trans hd'
    injection this
  subst hw2
  have l3 := (collideAll_facts _ _ _ hcol).1
  have l4 : (integrateStep dt w5).items.length = w5.items.length := by
    simp [integrateStep]
  have l5 := (constraintStep_facts _ _ hcon).1
  have l6 := (severStep_facts _ _ _ hsev).1
  have l7 : (autolinkStep w2).items.length = w2.items.length := rfl
  have l8 : (gravityStep (inputStep input w)).items.length = w.items.length := rfl
  omega

/-- A concrete linked world whose item sits exactly on the only
teleporter. -/
def deliveryWorldA : World :=
  { jetman := { Jetman.new with linked_item := some 0 },
    items := [Item.new 400 300], teleports := [Teleporter.new ⟨400, 300⟩],
    gravity := ⟨0, 0.01⟩, terrain := [] }

/-- Witness for C4 on `deliveryWorldA`. -/
theorem teleport_delivery_witness :
    (∃ w2, deliveryStep deliveryWorldA = some w2 ∧ w2.jetman.linked_item = none ∧
      w2.items.length + 1 = deliveryWorldA.items.length) ∧
    (∃ j0, ∃ hj0 : j0 < deliveryWorldA.teleports.length,
      firstTeleporter deliveryWorldA.items[0].body.position deliveryWorldA.teleports
        = some j0 ∧
      (deliveryWorldA.items[0].body.position -
        deliveryWorldA.teleports[j0].position).length < 10 ∧
      ∀ k (hk : k < deliveryWorldA.teleports.length), k < j0 →
        ¬ (deliveryWorldA.items[0].body.position -
            deliveryWorldA.teleports[k].position).length < 10) ∧
    (∀ (input : InputState) (dt : ℝ) (w3 : World),
      World.update deliveryWorldA input dt = some w3 →
        w3.items.length + 1 = deliveryWorldA.items.length) := by
  have h0 : (deliveryWorldA.items[0].body.position -
      deliveryWorldA.teleports[0].position).length = 0 := by
    apply Vec2.length_eval
    · norm_num
    · simp [deliveryWorldA, Item.new, Body.new, Teleporter.new]
  exact teleport_delivery deliveryWorldA 0 rfl (by norm_num [deliveryWorldA]) 0
    (by norm_num [deliveryWorldA]) (by rw [h0]; norm_num)

end

noncomputable section

theorem linkScan_bound (jpos : Vec2) (range : ℝ) :
    ∀ (items : List Item) (k0 : ℕ) (acc : Option ℕ) (m : ℕ),
      linkScan jpos range k0 acc items = some m →
      acc = some m ∨ (k0 ≤ m ∧ m - k0 < items.length) := by
  intro items
  induction items with
  | nil => intro k0 acc m h; exact Or.inl h
  | cons it rest ih =>
      intro k0 acc m h
      have h' := ih (k0 + 1)
        (if (it.body.position - jpos).length < range then some k0 else acc) m h
      rcases h' with h' | h'
      · by_cases hc : (it.body.position - jpos).length < range
        · rw [if_pos hc] at h'
          injection h' with h'
          right
          simp only [List.length_cons]
          omega
        · rw [if_neg hc] at h'
          exact Or.inl h'
      · right
        refine ⟨by omega, ?_⟩
        simp only [List.length_cons]
        omega

theorem deliveryStep_inv (w : World) (hw : linkInv w) :
    ∃ w2, deliveryStep w = some w2 ∧ linkInv w2 := by
  cases hl : w.jetman.linked_item with
  | none =>
      refine ⟨w, ?_, hw⟩
      simp only [deliveryStep, hl]
  | some i =>
      have hi : i < w.items.length := hw i hl
      simp only [deliveryStep, hl]
      rw [dif_pos hi]
      cases hft : firstTeleporter w.items[i].body.position w.teleports with
      | none => exact ⟨w, rfl, hw⟩
      | some j =>
          refine ⟨_, rfl, ?_⟩
          intro k hk
          exact Option.noConfusion hk

theorem autolinkStep_inv (w : World) (hw : linkInv w) : linkInv (autolinkStep w) := by
  intro k hk
  have hk' : linkScan w.jetman.body.position w.jetman.link_distance 0
      w.jetman.linked_item w.items = some k := hk
  have hlen : (autolinkStep w).items.length = w.items.length := rfl
  rw [hlen]
  rcases linkScan_bound w.jetman.body.position w.jetman.link_distance
    w.items 0 w.jetman.linked_item k hk' with h | h
  · exact hw k h
  · omega

theorem severStep_inv (input : InputState) (w : World) (hw : linkInv w) :
    ∃ w4, severStep input w = some w4 ∧ linkInv w4 := by
  by_cases hs : input.sever_link = true
  · cases hl : w.jetman.linked_item with
    | none =>
        refine ⟨w, ?_, hw⟩
        simp only [severStep, hl]
        rw [if_pos hs]
    | some i =>
        have hi : i < w.items.length := hw i hl
        simp only [severStep, hl]
        rw [if_pos hs, dif_pos hi]
        refine ⟨_, rfl, ?_⟩
        intro k hk
        exact Option.noConfusion hk
  · refine ⟨w, ?_, hw⟩
    simp only [severStep]
    rw [if_neg hs]

theorem constraintStep_inv (w : World) (hw : linkInv w) :
    ∃ w5, constraintStep w = some w5 ∧ linkInv w5 := by
  cases hl : w.jetman.linked_item with
  | none =>
      refine ⟨w, ?_, hw⟩
      simp only [constraintStep, hl]
  | some i =>
      have hi : i < w.items.length := hw i hl
      simp only [constraintStep, hl]
      rw [dif_pos hi]
      simp only [ne_eq]
      split
      · refine ⟨_, rfl, ?_⟩
        intro k hk
        have hk' : some i = some k := hk
        injection hk' with hk'
        subst hk'
        simpa [List.length_set] using hi
      · exact ⟨w, rfl, hw⟩

theorem integrateStep_inv (dt : ℝ) (w : World) (hw : linkInv w) :
    linkInv (integrateStep dt w) := by
  intro k hk
  have hk' : w.jetman.linked_item = some k := hk
  have : k < w.items.length := hw k hk'
  simpa [integrateStep] using this

theorem collideAll_inv (ts : List Terrain) (w w' : World)
    (h : collideAll ts w = some w') (hw : linkInv w) : linkInv w' := by
  intro k hk
  obtain ⟨hlen, hlink⟩ := collideAll_facts ts w w' h
  rw [hlen]
  exact hw k (by rw [← hlink]; exact hk)

theorem pre_inv (input : InputState) (w : World) (hw : linkInv w) :
    linkInv (gravityStep (inputStep input w)) := by
  intro k hk
  have hk' : (jetmanInput input w.jetman).linked_item = some k := hk
  rw [jetmanInput_linked] at hk'
  exact hw k hk'

theorem linkPhase_total (w : World) (hw : linkInv w) (input : InputState) :
    ∃ w2 w4 w5, deliveryStep (gravityStep (inputStep input w)) = some w2 ∧
      severStep input (autolinkStep w2) = some w4 ∧
      constraintStep w4 = some w5 ∧ linkInv w5 := by
  obtain ⟨w2, hd, hi2⟩ := deliveryStep_inv _ (pre_inv input w hw)
  obtain ⟨w4, hs, hi4⟩ := severStep_inv input _ (autolinkStep_inv _ hi2)
  obtain ⟨w5, hc, hi5⟩ := constraintStep_inv _ hi4
  exact ⟨w2, w4, w5, hd, hs, hc, hi5⟩

theorem update_preserves_linkInv (w : World) (input : InputState) (dt : ℝ)
    (w' : World) (h : World.update w input dt = some w') (hw : linkInv w) :
    linkInv w' := by
  obtain ⟨w2, w4, w5, hdel, hsev, hcon, hcol⟩ := update_as_steps w input dt w' h
  obtain ⟨w2', w4', w5', hd', hs', hc', hi5⟩ := linkPhase_total w hw input
  have e2 : w2 = w2' := by
    have := hdel.symm.trans hd'
    injection this
  subst e2
  have e4 : w4 = w4' := by
    have := hsev.symm.trans hs'
    injection this
  subst e4
  have e5 : w5 = w5' := by
    have := hcon.symm.trans hc'
    injection this
  subst e5
  exact collideAll_inv _ _ _ hcol (integrateStep_inv dt w5 hi5)

end

noncomputable section

/-- C9: in every world state reachable from `World::new` by successful
updates, the linked-item index, when present, denotes a live item
(`i < items.length`); consequently the link-dereferencing steps of
`World::update` (delivery check, sever, constraint solve) are all in bounds
on a reachable state — for any input the delivery/sever/constraint chain
succeeds — because the only item removal (delivery) clears the link in the
same tick before any later step dereferences it. -/
theorem reachable_link_valid (w : World) (hw : Reachable w) :
    linkInv w ∧ ∀ input : InputState,
      ∃ w2 w4 w5, deliveryStep (gravityStep (inputStep input w)) = some w2 ∧
        severStep input (autolinkStep w2) = some w4 ∧
        constraintStep w4 = some w5 := by
  have hinv : linkInv w := by
    induction hw with
    | init t => intro i h; exact Option.noConfusion h
    | step w0 input dt w' hw0 hup ih =>
        exact update_preserves_linkInv w0 input dt w' hup ih
  refine ⟨hinv, fun input => ?_⟩
  obtain ⟨w2, w4, w5, hd, hs, hc, _⟩ := linkPhase_total w hinv input
  exact ⟨w2, w4, w5, hd, hs, hc⟩

/-- Witness for C9 at the initial world. -/
theorem reachable_link_valid_witness :
    linkInv (World.new []) ∧ ∀ input : InputState,
      ∃ w2 w4 w5,
        deliveryStep (gravityStep (inputStep input (World.new []))) = some w2 ∧
        severStep input (autolinkStep w2) = some w4 ∧
        constraintStep w4 = some w5 :=
  reachable_link_valid (World.new []) (Reachable.init [])

/-- A world whose jetman holds a linked index with no corresponding item. -/
def staleLinkWorld : World :=
  { jetman := { Jetman.new with linked_item := some 0 }, items := [],
    teleports := [], gravity := ⟨0, 0.01⟩, terrain := [] }

/-- Counterexample to C3 as stated: on a state whose linked index has no
corresponding item, `World::update` does not treat the state as having no
link — it faults with an out-of-bounds access at the unguarded
`self.items[item_id.0]` of the delivery check (the panic is modelled as
`none`). -/
theorem stale_link_faults :
    World.update staleLinkWorld ⟨false, false, false, false⟩ 1 = none := rfl

/-- C3 amended: `World::update` performs no validation of the linked index
against item existence — on any state whose linked index is out of range
the dereference at the delivery check faults (modelled as `none`) instead
of being treated as no-link.  (Such states are unreachable: the delivery
step clears the link in the tick that removes the item.) -/
theorem stale_link_update_none (w : World) (input : InputState) (dt : ℝ) (i : ℕ)
    (hlink : w.jetman.linked_item = some i) (hge : w.items.length ≤ i) :
    World.update w input dt = none := by
  have hl1 : (gravityStep (inputStep input w)).jetman.linked_item = some i := by
    show (jetmanInput input w.jetman).linked_item = some i
    rw [jetmanInput_linked]
    exact hlink
  have hd : deliveryStep (gravityStep (inputStep input w)) = none := by
    simp only [deliveryStep, hl1]
    rw [dif_neg (show ¬ i < (gravityStep (inputStep input w)).items.length from
      Nat.not_lt.mpr hge)]
  simp only [World.update]
  rw [hd]
  rfl

/-- A second stale-link world, with one item but a linked index of 5. -/
def staleLinkWorldB : World :=
  { jetman := { Jetman.new with linked_item := some 5 },
    items := [Item.new 100 200], teleports := [], gravity := ⟨0, 0.01⟩,
    terrain := [] }

/-- Witness for the amended C3 on `staleLinkWorldB`. -/
theorem stale_link_update_none_witness :
    World.update staleLinkWorldB ⟨false, false, false, false⟩ 1 = none :=
  stale_link_update_none staleLinkWorldB ⟨false, false, false, false⟩ 1 5 rfl
    (by norm_num [staleLinkWorldB])

end
